import Mathlib

/-! ### Naming utilities (src/codegen/utils.ts) -/

/-- Separator character class of the regex `[-_\s]+` used by `pascalCase` and
`camelCase` (ASCII fragment of `\s`; the claims only involve ASCII input). -/
def isSep (c : Char) : Bool :=
  c = '-' || c = '_' || c = ' ' || c = '\t' || c = '\n' || c = '\r' ||
  c = '\x0b' || c = '\x0c'

/-- Semantics of `str.replace(/[-_\s]+(.)?/g, (_, ch) => ch ? ch.toUpperCase() : "")`:
scanning left to right, every maximal run of separator characters is deleted and
the character following the run (if any) is uppercased.  The Boolean flag records
whether the scanner is immediately after a separator run. -/
def collapseSepsAux : Bool → List Char → List Char
  | _, [] => []
  | afterRun, c :: rest =>
    if isSep c then collapseSepsAux true rest
    else if afterRun then c.toUpper :: collapseSepsAux false rest
    else c :: collapseSepsAux false rest

/-- Semantics of `str.replace(/^(.)/, ch => ch.toUpperCase())`; the dot does not
match a newline, in which case the string is left unchanged. -/
def upperFirstJs : List Char → List Char
  | [] => []
  | c :: rest => if c = '\n' then c :: rest else c.toUpper :: rest

/-- Semantics of `str.replace(/^(.)/, ch => ch.toLowerCase())`. -/
def lowerFirstJs : List Char → List Char
  | [] => []
  | c :: rest => if c = '\n' then c :: rest else c.toLower :: rest

/-- `pascalCase` from src/codegen/utils.ts. -/
def pascalCase (str : String) : String :=
  String.mk (upperFirstJs (collapseSepsAux false str.toList))

/-- `camelCase` from src/codegen/utils.ts. -/
def camelCase (str : String) : String :=
  String.mk (lowerFirstJs (collapseSepsAux false str.toList))

/-- Declaration name built by `generateToolInterface`
(src/codegen/interface-generator.ts line 261): `pascalCase(tool.name) + "Input"`. -/
def interfaceNameFor (toolName : String) : String :=
  pascalCase toolName ++ "Input"

/-- Separator characters named by the claim: `-`, `_`, space. -/
def claimSep (c : Char) : Bool :=
  c = '-' || c = '_' || c = ' '

/-- Two character lists differ only in their separator characters: they have the
same length and agree pointwise except where both hold a separator. -/
def sepVariantB : List Char → List Char → Bool
  | [], [] => true
  | c :: cs, d :: ds => (c = d || (claimSep c && claimSep d)) && sepVariantB cs ds
  | _, _ => false

/-! ### Schema model and type synthesizer (src/codegen/schema-converter.ts) -/

/-- Value of the `type` field of a JSON-Schema node: absent, a string, or an
array of strings (multi-valued `type`). -/
inductive SType where
  | absent
  | str (t : String)
  | list (ts : List String)
  deriving DecidableEq

/-- One JSON-Schema node as consumed by `jsonSchemaToTypeScript`.  `nullv`
models a falsy schema value (`null`/`undefined`); `obj` models a schema object
with the fields the converter reads.  `Option` encodes JS presence-and-truthiness
of a field (`none` for an absent or falsy field), so `enumv`/`properties`/the
`anyOf`/`oneOf`/`allOf` lists may be present yet empty, exactly as in JS where an
empty array is truthy.  `addProps` is `additionalProperties`
(`Bool` or a nested schema). -/
inductive Schema where
  | nullv
  | obj (type : SType)
        (enumv : Option (List String))
        (items : Option Schema)
        (properties : Option (List (String × Schema)))
        (required : Option (List String))
        (addProps : Option (Bool ⊕ Schema))
        (anyOf : Option (List Schema))
        (oneOf : Option (List Schema))
        (allOf : Option (List Schema))
        (description : Option String)

/-- Regex `/^[a-zA-Z_][a-zA-Z0-9_]*$/` deciding whether a property key may be
emitted bare (schema-converter.ts line 48). -/
def isValidIdent (key : String) : Bool :=
  match key.toList with
  | [] => false
  | c :: rest => (c.isAlpha || c = '_') && rest.all (fun d => d.isAlphanum || d = '_')

/-- Quoting of property keys that are not valid bare identifiers. -/
def quoteKey (key : String) : String :=
  if isValidIdent key then key else "\"" ++ key ++ "\""

/-- One emitted property line of an object type:
``  ${quotedKey}${optional}: ${type};`` where the optional marker is present
iff the key is not in the `required` set. -/
def propLine (req : List String) (key : String) (ty : String) : String :=
  "  " ++ quoteKey key ++ (if req.contains key then "" else "?") ++ ": " ++ ty ++ ";"

/-- Index-signature lines appended for `additionalProperties`
(schema-converter.ts lines 54-60): a schema value types the signature by its own
synthesis, boolean `true` types it `any`, `false` or absent adds nothing. -/
def idxLines (synthAp : Option String) : List String :=
  match synthAp with
  | some ty => ["  [key: string]: " ++ ty ++ ";"]
  | none => []

/-- `jsonSchemaToTypeScript` from src/codegen/schema-converter.ts: the
recursive JSON-Schema to TypeScript type-expression synthesizer.  The `switch`
on `schema.type` becomes the conditional chain on `t`; the `default` arm
(union of a multi-valued `type`, `anyOf`/`oneOf`, `allOf`, fallback `"any"`)
appears once for an unrecognized `type` string and once for an absent `type`. -/
def jsonSchemaToTypeScript (schema : Schema) : String :=
  match schema with
  | .nullv => "any"
  | .obj ty enumv items properties required addProps anyOf oneOf allOf descr =>
    match ty with
    | .str t =>
      if t = "string" then
        match enumv with
        | some vs => String.intercalate " | " (vs.map (fun v => "\"" ++ v ++ "\""))
        | none => "string"
      else if t = "number" then "number"
      else if t = "integer" then "number"
      else if t = "boolean" then "boolean"
      else if t = "null" then "null"
      else if t = "array" then
        (match items with
         | some it => jsonSchemaToTypeScript it
         | none => "any") ++ "[]"
      else if t = "object" then
        match properties with
        | none => "Record<string, any>"
        | some props =>
          let req := required.getD []
          let lines := props.attach.map (fun kv =>
            propLine req kv.1.1 (jsonSchemaToTypeScript kv.1.2))
          let lines := lines ++ idxLines
            (match addProps with
             | some (.inl true) => some "any"
             | some (.inr ap) => some (jsonSchemaToTypeScript ap)
             | _ => none)
          if lines.length > 0 then "\x7b\n" ++ String.intercalate "\n" lines ++ "\n\x7d"
          else "\x7b\x7d"
      else
        match anyOf with
        | some ss => String.intercalate " | " (ss.attach.map (fun s => jsonSchemaToTypeScript s.1))
        | none =>
          match oneOf with
          | some ss => String.intercalate " | " (ss.attach.map (fun s => jsonSchemaToTypeScript s.1))
          | none =>
            match allOf with
            | some ss => String.intercalate " & " (ss.attach.map (fun s => jsonSchemaToTypeScript s.1))
            | none => "any"
    | .list ts =>
      String.intercalate " | " (ts.attach.map (fun t =>
        jsonSchemaToTypeScript (.obj (.str t.1) none none none none none none none none none)))
    | .absent =>
      match anyOf with
      | some ss => String.intercalate " | " (ss.attach.map (fun s => jsonSchemaToTypeScript s.1))
      | none =>
        match oneOf with
        | some ss => String.intercalate " | " (ss.attach.map (fun s => jsonSchemaToTypeScript s.1))
        | none =>
          match allOf with
          | some ss => String.intercalate " & " (ss.attach.map (fun s => jsonSchemaToTypeScript s.1))
          | none => "any"
termination_by sizeOf schema
decreasing_by
  all_goals simp_wf
  all_goals try omega
  all_goals
    try (obtain ⟨⟨k, v⟩, hm⟩ := kv
         have h1 := List.sizeOf_lt_of_mem hm
         simp at h1 ⊢
         omega)
  all_goals
    try (have h1 := List.sizeOf_lt_of_mem s.2
         omega)
  all_goals
    (have h1 := List.sizeOf_lt_of_mem t.2
     have h2 : 0 < sizeOf enumv := by cases enumv <;> simp_arith
     have h3 : 0 < sizeOf items := by cases items <;> simp_arith
     have h4 : 0 < sizeOf properties := by cases properties <;> simp_arith
     have h5 : 0 < sizeOf required := by cases required <;> simp_arith
     have h6 : 0 < sizeOf addProps := by cases addProps <;> simp_arith
     have h7 : 0 < sizeOf anyOf := by cases anyOf <;> simp_arith
     have h8 : 0 < sizeOf oneOf := by cases oneOf <;> simp_arith
     have h9 : 0 < sizeOf allOf := by cases allOf <;> simp_arith
     have h10 : 0 < sizeOf descr := by cases descr <;> simp_arith
     omega)

/-- Type strings recognized by the `switch` in `jsonSchemaToTypeScript`. -/
def recognizedTypeLit (t : String) : Bool :=
  t = "string" || t = "number" || t = "integer" || t = "boolean" ||
  t = "null" || t = "array" || t = "object"

/-- A node of unrecognized shape: its `type` is absent or an unrecognized
string (not an array), and none of `anyOf`/`oneOf`/`allOf` is present, so the
`switch` default falls through every union/intersection test. -/
def unrecognizedShape : Schema → Bool
  | .nullv => true
  | .obj ty _ _ _ _ _ anyOf oneOf allOf _ =>
    (match ty with
     | .absent => true
     | .str t => !recognizedTypeLit t
     | .list _ => false) && anyOf.isNone && oneOf.isNone && allOf.isNone

/-- Sample leaf node `{type: "string"}` used by concrete witnesses. -/
def sampleStringNode : Schema :=
  .obj (.str "string") none none none none none none none none none

/-- Sample leaf node `{type: "number"}` used by concrete witnesses. -/
def sampleNumberNode : Schema :=
  .obj (.str "number") none none none none none none none none none

/-! ### Tool input interfaces (src/codegen/interface-generator.ts) -/

/-- JS truthiness of an optional string field (absent or empty string is falsy). -/
def strTruthy : Option String → Bool
  | some s => s ≠ ""
  | none => false

/-- JS truthiness of an optional schema value (absent and `null` are falsy,
any schema object is truthy). -/
def schemaTruthy : Option Schema → Bool
  | some (.obj _ _ _ _ _ _ _ _ _ _) => true
  | _ => false

/-- The `description` field of a schema node, read by the interface generator
for per-property JSDoc. -/
def Schema.descrOf : Schema → Option String
  | .nullv => none
  | .obj _ _ _ _ _ _ _ _ _ d => d

/-- The guard `tool.inputSchema?.type === "object" && tool.inputSchema.properties`
(interface-generator.ts line 279); on success returns the properties list and
the raw `required` field. -/
def schemaObjectProps : Option Schema → Option (List (String × Schema) × Option (List String))
  | some (.obj (.str "object") _ _ (some P) req _ _ _ _ _) => some (P, req)
  | _ => none

/-- One property signature of a generated interface declaration. -/
structure PropSig where
  name : String
  type : String
  optional : Bool
  jsDoc : Option String
  deriving DecidableEq

/-- A generated interface declaration (name, JSDoc, property signatures); all
generated interfaces are exported. -/
structure InterfaceDecl where
  name : String
  jsDoc : Option String
  props : List PropSig
  deriving DecidableEq

/-- A tool descriptor as consumed by the generator. -/
structure Tool where
  name : String
  description : Option String
  inputSchema : Option Schema

/-- `generateToolInterface` from src/codegen/interface-generator.ts: named
`pascalCase(name) + "Input"`; an Object-with-properties schema contributes one
documented property per schema property (optional iff not required); otherwise
a single synthetic `value` property holding the full synthesized expression is
added unless that expression is exactly the empty structural type. -/
def generateToolInterface (tool : Tool) : InterfaceDecl :=
  let typeString := jsonSchemaToTypeScript (tool.inputSchema.getD .nullv)
  let props :=
    match schemaObjectProps tool.inputSchema with
    | some (P, req) =>
      let required := req.getD []
      P.map (fun kv =>
        { name := kv.1
          type := jsonSchemaToTypeScript kv.2
          optional := !required.contains kv.1
          jsDoc := if strTruthy kv.2.descrOf then kv.2.descrOf else none : PropSig })
    | none =>
      if typeString ≠ "\x7b\x7d" then
        [{ name := "value", type := typeString, optional := false, jsDoc := none }]
      else []
  { name := interfaceNameFor tool.name
    jsDoc := if strTruthy tool.description then tool.description else none
    props := props }

/-- Concrete tool whose input schema is present and not an
Object-with-properties, yet synthesizes exactly the empty structural type:
`{anyOf: [{type: "object", properties: {}}]}`. -/
def emptyDeclTool : Tool :=
  { name := "weird-op"
    description := none
    inputSchema := some (.obj .absent none none none none none
      (some [.obj (.str "object") none none (some []) none none none none none none]) none none none) }

/-- Concrete tool with a bare array input schema, exercising the `value`
wrapper branch of the amended C2. -/
def arrayTool : Tool :=
  { name := "list-items"
    description := none
    inputSchema := some (.obj (.str "array") none (some sampleStringNode) none none none none none none none) }

/-! ### The emitted result-unwrapping helper (file-builder.ts lines 147-174) -/

/-- One JS value inside `result.content`: a truthy object (possibly carrying a
string-coercible `text` field), a truthy non-object primitive, or a falsy
value. -/
inductive JsContent where
  | objWithText (text : String)
  | objNoText
  | primVal (s : String)
  | nullVal
  deriving DecidableEq

/-- Whether a content value is a truthy JS object (`content && typeof content === "object"`). -/
def JsContent.isJsObject : JsContent → Bool
  | .objWithText _ => true
  | .objNoText => true
  | _ => false

/-- The raw value returned by `client.callTool()` as read by the emitted
helper: the truthiness of `result.isError`, and `result.content` (`none` models
an absent or non-array value). -/
structure RawToolResult where
  isError : Bool
  content : Option (List JsContent)
  deriving DecidableEq

/-- Outcome of the emitted helper: the returned first content item, or one of
its three distinct `throw` sites. -/
inductive ToolOutcome where
  | ok (item : JsContent)
  | operationFailed (message : String)
  | emptyResult (message : String)
  | invalidContent (message : String)
  deriving DecidableEq

/-- The `handleToolResult` function emitted verbatim into every generated
module by `addUtilityFunctions` (src/codegen/file-builder.ts lines 147-174):
an error-flagged result throws with the extracted message; an absent, non-array
or empty `content` throws the empty-content error; a first content item that is
falsy or not an object throws the invalid-structure error; otherwise the first
content item is returned. -/
def handleToolResult (result : RawToolResult) (toolName : String) : ToolOutcome :=
  if result.isError then
    let errorContent := (result.content.getD []).head?
    let errorMessage :=
      match errorContent with
      | some (.objWithText t) => t
      | _ => "Tool execution failed"
    .operationFailed ("Tool \x27" ++ toolName ++ "\x27 error: " ++ errorMessage)
  else
    match result.content with
    | none => .emptyResult ("Tool \x27" ++ toolName ++ "\x27 returned empty content")
    | some [] => .emptyResult ("Tool \x27" ++ toolName ++ "\x27 returned empty content")
    | some (c :: _) =>
      if c.isJsObject then .ok c
      else .invalidContent ("Tool \x27" ++ toolName ++ "\x27 returned invalid content structure")

/-! ### Client classes (src/codegen/class-generator.ts) -/

/-- A resource descriptor (locator URI, optional display name and description). -/
structure Resource where
  uri : String
  name : Option String
  description : Option String

/-- One declared prompt argument. -/
structure PromptArgument where
  name : String
  required : Bool

/-- A prompt descriptor. -/
structure Prompt where
  name : String
  description : Option String
  arguments : Option (List PromptArgument)

/-- Introspection output for one server as consumed by the generator (the
`server` connection-config field is not read by code generation and is
elided). -/
structure IntrospectionResult where
  tools : List Tool
  resources : List Resource
  prompts : List Prompt
  error : Option String

/-- A generated class method: name, parameters (name, type), return type,
optional JSDoc description, and body statement lines. -/
structure MethodDecl where
  name : String
  isAsync : Bool
  params : List (String × String)
  returnType : String
  jsDoc : Option String
  statements : List String
  deriving DecidableEq

/-- A generated client class.  Every class additionally carries the same fixed
members — the private `connection : McpConnection` property and the one-argument
constructor assigning it — which, being identical for every class, are not
modelled as fields.  `serverName` appears in the class JSDoc description
(`MCP client for <serverName> server`) and `generatedAt` is the `@generated`
JSDoc tag produced from `new Date().toISOString()` (class-generator.ts lines
41-49). -/
structure ClassDecl where
  name : String
  serverName : String
  generatedAt : String
  methods : List MethodDecl
  deriving DecidableEq

/-- `generateToolMethod` (class-generator.ts lines 90-130). -/
def generateToolMethod (tool : Tool) : MethodDecl :=
  let inputType := if schemaTruthy tool.inputSchema then pascalCase tool.name ++ "Input" else "void"
  let callArgs := if inputType ≠ "void" then "input" else "\x7b\x7d"
  { name := camelCase tool.name
    isAsync := true
    params := if inputType ≠ "void" then [("input", inputType)] else []
    returnType := "Promise<any>"
    jsDoc := if strTruthy tool.description then tool.description else none
    statements := [
      "const result = await this.connection.client.callTool(\x7b",
      "  name: \"" ++ tool.name ++ "\",",
      "  arguments: " ++ callArgs ++ ",",
      "\x7d);",
      "return handleToolResult(result, \"" ++ tool.name ++ "\");" ] }

/-- `generateResourceMethods` (class-generator.ts lines 135-187): one generic
`getResource` accessor (whose fixed `@param` JSDoc tag is folded into the
description) plus one zero-argument convenience method per resource with a
truthy display name. -/
def resourceMethods (resources : List Resource) : List MethodDecl :=
  { name := "getResource"
    isAsync := true
    params := [("uri", "string")]
    returnType := "Promise<any>"
    jsDoc := some "Fetch a resource by URI"
    statements := [
      "const result = await this.connection.client.readResource(\x7b uri \x7d);",
      "return handleResourceResult(result, uri);" ] } ::
  (resources.filter (fun r => strTruthy r.name)).map (fun r =>
    { name := "get" ++ pascalCase (r.name.getD "")
      isAsync := true
      params := []
      returnType := "Promise<any>"
      jsDoc := if strTruthy r.description then r.description else none
      statements := [ "return this.getResource(\"" ++ r.uri ++ "\");" ] })

/-- `generatePromptMethods` (class-generator.ts lines 192-238). -/
def promptMethods (prompts : List Prompt) : List MethodDecl :=
  prompts.map (fun p =>
    let args := (p.arguments.getD []).map (fun a =>
      a.name ++ (if a.required then "" else "?") ++ ": string")
    let argsParam := if 0 < args.length then "args" else "\x7b\x7d"
    { name := camelCase p.name ++ "Prompt"
      isAsync := true
      params :=
        if 0 < args.length then
          [("args", "\x7b " ++ String.intercalate "; " args ++ " \x7d")]
        else []
      returnType := "Promise<any>"
      jsDoc := if strTruthy p.description then p.description else none
      statements := [
        "const result = await this.connection.client.getPrompt(\x7b",
        "  name: \"" ++ p.name ++ "\",",
        "  arguments: " ++ argsParam ++ ",",
        "\x7d);",
        "return result.messages;" ] })

/-- `generateClientClass` (class-generator.ts lines 28-85).  `now` is the value
of `new Date().toISOString()` at generation time. -/
def generateClientClass (serverName : String) (result : IntrospectionResult)
    (now : String) : ClassDecl :=
  { name := pascalCase serverName ++ "Client"
    serverName := serverName
    generatedAt := now
    methods :=
      result.tools.map generateToolMethod ++
      (if 0 < result.resources.length then resourceMethods result.resources else []) ++
      (if 0 < result.prompts.length then promptMethods result.prompts else []) }

/-! ### Module assembly (src/codegen/file-builder.ts) -/

/-- Code-generation options (file-builder.ts lines 20-29).  `outputPath` names
the in-memory file only and `clientPrefix`/`includeComments` are never read by
`generateClientFile`, so none of them influences the emitted items. -/
structure CodegenOptions where
  outputPath : Option String := none
  clientPrefix : Option String := none
  includeComments : Option Bool := none
  treeShakable : Option Bool := none

/-- One top-level item of the assembled module, in emission order:  the
generated-at header comment, an import declaration, the fixed utility-function
block (`handleToolResult`/`handleResourceResult`), a per-server error comment,
an interface declaration, a class declaration, a module-level lazy singleton
slot (`// Singleton instance for <server>` plus `let _<instance>`), or an
exported accessor function. -/
inductive GenItem where
  | header (generatedAt : String)
  | importDecl (moduleSpecifier : String) (namedImports : List String) (isTypeOnly : Bool)
  | utilityFunctions
  | errorComment (serverName error : String)
  | interfaceItem (decl : InterfaceDecl)
  | classItem (decl : ClassDecl)
  | singletonSlot (serverName instanceName className : String)
  | accessorFunc (serverName fnName instanceName className : String)
  deriving DecidableEq

/-- Fixed prefix of every generated file: header comment, the two imports, and
the embedded utility functions (file-builder.ts lines 48-70). -/
def preambleItems (now : String) : List GenItem :=
  [ .header now,
    .importDecl "@modelcontextprotocol/sdk/client/index.js" ["Client"] false,
    .importDecl "./types.js" ["McpConnection"] true,
    .utilityFunctions ]

/-- Items emitted for one entry of the server map (the body of the `for` loop
in file-builder.ts lines 75-124): an error comment for a server whose
introspection failed, otherwise the tool interfaces (for tools with a truthy
input schema), the client class, and — unless `treeShakable` is `false` — the
lazy singleton slot and the exported `get<Pascal>Client` accessor.  The
`clientInstances` array accumulated by the source is never read afterwards and
is not modelled. -/
def serverItems (options : CodegenOptions) (now : String)
    (sv : String × IntrospectionResult) : List GenItem :=
  if strTruthy sv.2.error then
    [ .errorComment sv.1 (sv.2.error.getD "") ]
  else
    (sv.2.tools.filter (fun t => schemaTruthy t.inputSchema)).map
      (fun t => .interfaceItem (generateToolInterface t)) ++
    [ .classItem (generateClientClass sv.1 sv.2 now) ] ++
    (if options.treeShakable ≠ some false then
      [ .singletonSlot sv.1 (camelCase sv.1) (pascalCase sv.1 ++ "Client"),
        .accessorFunc sv.1 ("get" ++ pascalCase sv.1 ++ "Client")
          (camelCase sv.1) (pascalCase sv.1 ++ "Client") ]
    else [])

/-- `generateClientFile` (file-builder.ts lines 34-133): the ordered items of
the assembled module for a server map given as an association list in map
iteration order.  `now` is the timestamp captured by `new Date()` during the
run. -/
def generateClientFile (servers : List (String × IntrospectionResult))
    (options : CodegenOptions) (now : String) : List GenItem :=
  preambleItems now ++ servers.flatMap (serverItems options now)

/-! ### Observations on the assembled item list -/

/-- Whether an item is the generation-timestamp header line. -/
def GenItem.isHeader : GenItem → Bool
  | .header _ => true
  | _ => false

/-- C1 as stated: two outputs are identical except (at most) at the single
generation-timestamp header line. -/
def onlyTimestampLineDiffers (a b : List GenItem) : Prop :=
  a.length = b.length ∧
  ∀ p ∈ a.zip b, p.1 = p.2 ∨ (p.1.isHeader = true ∧ p.2.isHeader = true)

/-- Introspection result of the witness server `"demo"`. -/
def demoResult : IntrospectionResult :=
  { tools := [], resources := [], prompts := [], error := none }

/-- A one-server map with no capabilities, as a minimal concrete input. -/
def demoServers : List (String × IntrospectionResult) :=
  [("demo", demoResult)]

/-- Timestamp-erasing projection: clears the header timestamp and each class's
`@generated` JSDoc timestamp. -/
def stripTimestamps : GenItem → GenItem
  | .header _ => .header ""
  | .classItem c => .classItem { c with generatedAt := "" }
  | it => it

/-- Server of provenance recorded in an emitted item, where one exists: the
name in an error comment, the class JSDoc description, the slot comment, or the
server whose loop iteration emitted the accessor. -/
def GenItem.serverOf : GenItem → Option String
  | .errorComment n _ => some n
  | .classItem c => some c.serverName
  | .singletonSlot n _ _ => some n
  | .accessorFunc n _ _ _ => some n
  | _ => none

/-- Whether an item is a module-level singleton slot. -/
def GenItem.isSingletonSlot : GenItem → Bool
  | .singletonSlot _ _ _ => true
  | _ => false

/-- Whether an item is an exported accessor function. -/
def GenItem.isAccessor : GenItem → Bool
  | .accessorFunc _ _ _ _ => true
  | _ => false

/-- Introspection result of the spec scenario server `"broken"`. -/
def brokenResult : IntrospectionResult :=
  { tools := [], resources := [], prompts := [], error := some "Connection refused" }

/-- Server map of the spec scenario: one server `"broken"` whose introspection
failed with `"Connection refused"`. -/
def brokenServers : List (String × IntrospectionResult) :=
  [("broken", brokenResult)]

/-! ### Claim C4: separator-insensitivity of the declaration names -/

lemma claimSep_isSep {c : Char} (h : claimSep c = true) : isSep c = true := by
  simp only [claimSep, isSep, Bool.or_eq_true] at h ⊢
  tauto

lemma collapseSepsAux_sepVariant :
    ∀ (l₁ l₂ : List Char), sepVariantB l₁ l₂ = true →
      ∀ flag, collapseSepsAux flag l₁ = collapseSepsAux flag l₂ := by
  intro l₁
  induction l₁ with
  | nil =>
    intro l₂ h flag
    cases l₂ with
    | nil => rfl
    | cons d ds => simp [sepVariantB] at h
  | cons c cs ih =>
    intro l₂ h flag
    cases l₂ with
    | nil => simp [sepVariantB] at h
    | cons d ds =>
      simp only [sepVariantB, Bool.and_eq_true, Bool.or_eq_true,
        decide_eq_true_eq] at h
      obtain ⟨hcd, htail⟩ := h
      rcases hcd with hcd | ⟨hc, hd⟩
      · subst hcd
        by_cases hs : isSep c = true
        · simp [collapseSepsAux, hs, ih ds htail]
        · simp [collapseSepsAux, hs, ih ds htail]
      · have hcs := claimSep_isSep hc
        have hds := claimSep_isSep hd
        simp [collapseSepsAux, hcs, hds, ih ds htail]

/-- C4 — Two operation names that differ only in their separator characters
(`-`, `_`, space) are mapped by the declaration-name transformation
(`pascalCase` plus the fixed `"Input"` suffix) to the same generated
identifier. -/
theorem interfaceName_separator_insensitive (s t : String)
    (h : sepVariantB s.toList t.toList = true) :
    interfaceNameFor s = interfaceNameFor t := by
  unfold interfaceNameFor pascalCase
  rw [collapseSepsAux_sepVariant s.toList t.toList h false]

/-- Witness for C4 at the inputs named by the spec scenario: `"create-page"`
and `"create_page"` normalize to the same generated identifier. -/
theorem interfaceName_separator_insensitive_witness :
    sepVariantB "create-page".toList "create_page".toList = true ∧
      interfaceNameFor "create-page" = interfaceNameFor "create_page" :=
  ⟨by decide, interfaceName_separator_insensitive "create-page" "create_page" (by decide)⟩

/-! ### Claim C5: totality and the `any` fallback -/

/-- C5 — The type synthesizer is total: on every finite schema node it returns
a type-expression string (the Lean embedding is a terminating function), and on
an absent node or a node of unrecognized shape it returns exactly `"any"`. -/
theorem jsonSchemaToTypeScript_total_fallback :
    (∀ s : Schema, ∃ out : String, jsonSchemaToTypeScript s = out) ∧
    jsonSchemaToTypeScript .nullv = "any" ∧
    (∀ s : Schema, unrecognizedShape s = true → jsonSchemaToTypeScript s = "any") := by
  refine ⟨fun s => ⟨_, rfl⟩, by simp [jsonSchemaToTypeScript], ?_⟩
  intro s hs
  cases s with
  | nullv => simp [jsonSchemaToTypeScript]
  | obj ty enumv items properties required addProps anyOf oneOf allOf descr =>
    simp only [unrecognizedShape, Bool.and_eq_true, Option.isNone_iff_eq_none] at hs
    obtain ⟨⟨⟨hty, ha⟩, ho⟩, hal⟩ := hs
    subst ha
    subst ho
    subst hal
    cases ty with
    | absent => simp [jsonSchemaToTypeScript]
    | list ts => simp at hty
    | str t =>
      simp only [Bool.not_eq_eq_eq_not, Bool.not_true, recognizedTypeLit,
        Bool.or_eq_false_iff, decide_eq_false_iff_not] at hty
      obtain ⟨⟨⟨⟨⟨⟨h1, h2⟩, h3⟩, h4⟩, h5⟩, h6⟩, h7⟩ := hty
      rw [jsonSchemaToTypeScript.eq_def]
      simp [h1, h2, h3, h4, h5, h6, h7]

/-- Witness for C5 at a concrete unrecognized node `{type: "weird"}`. -/
theorem jsonSchemaToTypeScript_total_fallback_witness :
    unrecognizedShape (.obj (.str "weird") none none none none none none none none none) = true ∧
      jsonSchemaToTypeScript (.obj (.str "weird") none none none none none none none none none) = "any" :=
  ⟨by decide, jsonSchemaToTypeScript_total_fallback.2.2 _ (by decide)⟩

/-! ### Claim C9: empty-properties Object versus propertiesless Object -/

/-- C9 — An Object node with an empty properties map and no
`additionalProperties` synthesizes the empty structural type `{}`, while an
Object node with no `properties` key at all synthesizes the open
`Record<string, any>` type. -/
theorem jsonSchemaToTypeScript_empty_properties_spec :
    jsonSchemaToTypeScript (.obj (.str "object") none none (some []) none none none none none none) = "\x7b\x7d" ∧
      jsonSchemaToTypeScript (.obj (.str "object") none none none none none none none none none) = "Record<string, any>" := by
  constructor
  · simp [jsonSchemaToTypeScript, idxLines]
  · simp [jsonSchemaToTypeScript]

/-! ### Claim C10: `enum` is consulted only for string nodes -/

/-- C10 — An `enum` field is consulted only when the node's `type` is exactly
`"string"`: there it synthesizes the union of the quoted literal values; for
every other `type` value the result coincides with the synthesis of the same
node with its `enum` removed. -/
theorem jsonSchemaToTypeScript_enum_spec (es : List String) (ty : SType)
    (items : Option Schema) (properties : Option (List (String × Schema)))
    (required : Option (List String)) (addProps : Option (Bool ⊕ Schema))
    (anyOf oneOf allOf : Option (List Schema)) (descr : Option String) :
    (ty = .str "string" →
      jsonSchemaToTypeScript (.obj ty (some es) items properties required addProps anyOf oneOf allOf descr) =
        String.intercalate " | " (es.map (fun v => "\"" ++ v ++ "\""))) ∧
    (ty ≠ .str "string" →
      jsonSchemaToTypeScript (.obj ty (some es) items properties required addProps anyOf oneOf allOf descr) =
        jsonSchemaToTypeScript (.obj ty none items properties required addProps anyOf oneOf allOf descr)) := by
  constructor
  · intro h
    subst h
    rw [jsonSchemaToTypeScript.eq_def]
    simp
  · intro hne
    cases ty with
    | absent => rw [jsonSchemaToTypeScript.eq_def, jsonSchemaToTypeScript.eq_def]
    | list ts => rw [jsonSchemaToTypeScript.eq_def, jsonSchemaToTypeScript.eq_def]
    | str t =>
      have ht : ¬ t = "string" := fun hh => hne (by rw [hh])
      rw [jsonSchemaToTypeScript.eq_def]
      conv_rhs => rw [jsonSchemaToTypeScript.eq_def]
      simp [ht]

/-- Witness for C10: the enum node `{type:"string", enum:["draft","published"]}`
synthesizes the quoted union, and the same enum on `{type:"number"}` is ignored. -/
theorem jsonSchemaToTypeScript_enum_spec_witness :
    SType.str "number" ≠ SType.str "string" ∧
      jsonSchemaToTypeScript (.obj (.str "string") (some ["draft", "published"]) none none none none none none none none) =
        String.intercalate " | " (["draft", "published"].map (fun v => "\"" ++ v ++ "\"")) ∧
      jsonSchemaToTypeScript (.obj (.str "number") (some ["draft", "published"]) none none none none none none none none) =
        jsonSchemaToTypeScript (.obj (.str "number") none none none none none none none none none) :=
  ⟨by decide,
   (jsonSchemaToTypeScript_enum_spec ["draft", "published"] (.str "string")
      none none none none none none none none).1 rfl,
   (jsonSchemaToTypeScript_enum_spec ["draft", "published"] (.str "number")
      none none none none none none none none).2 (by decide)⟩

/-! ### Claim C6: Object synthesis -/

/-- C6 — For an Object node with properties `P` and required list `R ⊆ keys P`,
the synthesis renders exactly one property line per entry of `P` (in order, so
every key is listed exactly once), where a line carries the optional marker iff
its key is not in `R` and quotes keys that are not valid bare identifiers; the
appended index-signature lines are determined exactly by `additionalProperties`:
a single signature typed `any` when it is boolean `true`, a single signature
typed by the schema's own synthesis when it is a schema, and nothing when it is
`false` or absent. -/
theorem jsonSchemaToTypeScript_object_spec
    (P : List (String × Schema)) (R : List String) (ap : Option (Bool ⊕ Schema))
    (enumv : Option (List String)) (items : Option Schema)
    (anyOf oneOf allOf : Option (List Schema)) (descr : Option String)
    (hsub : ∀ r ∈ R, r ∈ P.map Prod.fst) :
    (∃ apL : List String,
      (jsonSchemaToTypeScript (.obj (.str "object") enumv items (some P) (some R) ap anyOf oneOf allOf descr) =
        if 0 < (P.map (fun kv => propLine R kv.1 (jsonSchemaToTypeScript kv.2)) ++ apL).length
        then "\x7b\n" ++ String.intercalate "\n"
               (P.map (fun kv => propLine R kv.1 (jsonSchemaToTypeScript kv.2)) ++ apL) ++ "\n\x7d"
        else "\x7b\x7d") ∧
      (ap = some (Sum.inl true) → apL = ["  [key: string]: any;"]) ∧
      (∀ s, ap = some (Sum.inr s) →
        apL = ["  [key: string]: " ++ jsonSchemaToTypeScript s ++ ";"]) ∧
      ((ap = none ∨ ap = some (Sum.inl false)) → apL = []) ∧
      (apL ≠ [] ↔ ap = some (Sum.inl true) ∨ ∃ s, ap = some (Sum.inr s))) ∧
    (P.map (fun kv => propLine R kv.1 (jsonSchemaToTypeScript kv.2))).length = P.length ∧
    (∀ kv ∈ P, propLine R kv.1 (jsonSchemaToTypeScript kv.2) =
      "  " ++ (if isValidIdent kv.1 then kv.1 else "\"" ++ kv.1 ++ "\"") ++
        (if R.contains kv.1 then "" else "?") ++ ": " ++ jsonSchemaToTypeScript kv.2 ++ ";") := by
  refine ⟨⟨idxLines (match ap with
      | some (.inl true) => some "any"
      | some (.inr aps) => some (jsonSchemaToTypeScript aps)
      | _ => none), ?_, ?_, ?_, ?_, ?_⟩, ?_, ?_⟩
  · rw [jsonSchemaToTypeScript.eq_def]
    have hattach := List.attach_map_val P (fun kv => propLine R kv.1 (jsonSchemaToTypeScript kv.2))
    simp [hattach]
  · intro hap
    subst hap
    simp [idxLines]
  · intro s hap
    subst hap
    simp [idxLines]
  · intro hap
    rcases hap with hap | hap <;> subst hap <;> simp [idxLines]
  · rcases ap with _ | ⟨b | s⟩
    · simp [idxLines]
    · cases b <;> simp [idxLines]
    · simp [idxLines]
  · simp
  · intro kv _
    simp [propLine, quoteKey]

/-- Witness for C6 at the concrete Object node with properties
`path` (required) and `content-type` (optional, quoted) and a schema-valued
`additionalProperties: {type: "number"}`. -/
theorem jsonSchemaToTypeScript_object_spec_witness :
    (∀ r ∈ ["path"], r ∈ ([("path", sampleStringNode), ("content-type", sampleStringNode)].map Prod.fst)) ∧
    ((∃ apL : List String,
      (jsonSchemaToTypeScript (.obj (.str "object") none none
          (some [("path", sampleStringNode), ("content-type", sampleStringNode)])
          (some ["path"]) (some (Sum.inr sampleNumberNode)) none none none none) =
        if 0 < ([("path", sampleStringNode), ("content-type", sampleStringNode)].map
            (fun kv => propLine ["path"] kv.1 (jsonSchemaToTypeScript kv.2)) ++ apL).length
        then "\x7b\n" ++ String.intercalate "\n"
               ([("path", sampleStringNode), ("content-type", sampleStringNode)].map
                 (fun kv => propLine ["path"] kv.1 (jsonSchemaToTypeScript kv.2)) ++ apL) ++ "\n\x7d"
        else "\x7b\x7d") ∧
      ((some (Sum.inr sampleNumberNode) : Option (Bool ⊕ Schema)) = some (Sum.inl true) →
        apL = ["  [key: string]: any;"]) ∧
      (∀ s, (some (Sum.inr sampleNumberNode) : Option (Bool ⊕ Schema)) = some (Sum.inr s) →
        apL = ["  [key: string]: " ++ jsonSchemaToTypeScript s ++ ";"]) ∧
      (((some (Sum.inr sampleNumberNode) : Option (Bool ⊕ Schema)) = none ∨
        (some (Sum.inr sampleNumberNode) : Option (Bool ⊕ Schema)) = some (Sum.inl false)) →
        apL = []) ∧
      (apL ≠ [] ↔ (some (Sum.inr sampleNumberNode) : Option (Bool ⊕ Schema)) = some (Sum.inl true) ∨
        ∃ s, (some (Sum.inr sampleNumberNode) : Option (Bool ⊕ Schema)) = some (Sum.inr s))) ∧
    ([("path", sampleStringNode), ("content-type", sampleStringNode)].map
      (fun kv => propLine ["path"] kv.1 (jsonSchemaToTypeScript kv.2))).length =
      [("path", sampleStringNode), ("content-type", sampleStringNode)].length ∧
    (∀ kv ∈ [("path", sampleStringNode), ("content-type", sampleStringNode)],
      propLine ["path"] kv.1 (jsonSchemaToTypeScript kv.2) =
      "  " ++ (if isValidIdent kv.1 then kv.1 else "\"" ++ kv.1 ++ "\"") ++
        (if ["path"].contains kv.1 then "" else "?") ++ ": " ++ jsonSchemaToTypeScript kv.2 ++ ";")) :=
  ⟨by decide,
   jsonSchemaToTypeScript_object_spec
     [("path", sampleStringNode), ("content-type", sampleStringNode)] ["path"]
     (some (Sum.inr sampleNumberNode)) none none none none none none (by decide)⟩

/-! ### Claim C2: the synthetic `value` wrapper -/

/-- Counterexample to C2 as stated: `emptyDeclTool` has an input schema that is
not an Object-with-properties, yet its generated declaration is structurally
empty — it does not contain a single `value` property. -/
theorem generateToolInterface_value_wrapper_cex :
    schemaTruthy emptyDeclTool.inputSchema = true ∧
    schemaObjectProps emptyDeclTool.inputSchema = none ∧
    (generateToolInterface emptyDeclTool).props = [] ∧
    ¬ (generateToolInterface emptyDeclTool).props.length = 1 := by
  have hts : jsonSchemaToTypeScript (emptyDeclTool.inputSchema.getD .nullv) = "\x7b\x7d" := by
    simp [emptyDeclTool, jsonSchemaToTypeScript, idxLines]
    rfl
  refine ⟨rfl, rfl, ?_, ?_⟩ <;>
    simp [generateToolInterface, schemaObjectProps, emptyDeclTool] <;>
    simp [emptyDeclTool] at hts <;> simp [hts]

/-- C2 amended — For every operation that has an input schema which is not an
Object-with-properties, the emitted declaration contains exactly one property
named `value` whose type is the full synthesized expression — unless that
expression is exactly the empty structural type `{}`, in which case the
declaration is structurally empty. -/
theorem generateToolInterface_value_wrapper_spec (tool : Tool)
    (hschema : schemaTruthy tool.inputSchema = true)
    (hnotobj : schemaObjectProps tool.inputSchema = none) :
    (jsonSchemaToTypeScript (tool.inputSchema.getD .nullv) ≠ "\x7b\x7d" →
      (generateToolInterface tool).props =
        [{ name := "value", type := jsonSchemaToTypeScript (tool.inputSchema.getD .nullv),
           optional := false, jsDoc := none }]) ∧
    (jsonSchemaToTypeScript (tool.inputSchema.getD .nullv) = "\x7b\x7d" →
      (generateToolInterface tool).props = []) := by
  constructor <;> intro h <;> simp [generateToolInterface, hnotobj, h]

/-- Witness for the amended C2 at `arrayTool`. -/
theorem generateToolInterface_value_wrapper_witness :
    schemaTruthy arrayTool.inputSchema = true ∧
    schemaObjectProps arrayTool.inputSchema = none ∧
    ((jsonSchemaToTypeScript (arrayTool.inputSchema.getD .nullv) ≠ "\x7b\x7d" →
      (generateToolInterface arrayTool).props =
        [{ name := "value", type := jsonSchemaToTypeScript (arrayTool.inputSchema.getD .nullv),
           optional := false, jsDoc := none }]) ∧
    (jsonSchemaToTypeScript (arrayTool.inputSchema.getD .nullv) = "\x7b\x7d" →
      (generateToolInterface arrayTool).props = [])) :=
  ⟨rfl, rfl, generateToolInterface_value_wrapper_spec arrayTool rfl rfl⟩

/-! ### Claim C3: the unwrap contract -/

/-- Counterexample to C3 as stated: a result with the error flag clear and a
non-empty content list whose first item is a truthy non-object is not returned
— the helper fails with the invalid-content condition instead. -/
theorem handleToolResult_first_item_cex :
    handleToolResult { isError := false, content := some [.primVal "oops"] } "demo" ≠
      ToolOutcome.ok (.primVal "oops") ∧
    handleToolResult { isError := false, content := some [.primVal "oops"] } "demo" =
      ToolOutcome.invalidContent "Tool \x27demo\x27 returned invalid content structure" := by
  constructor
  · decide
  · rfl

/-- C3 amended — The emitted unwrap helper fails with `OperationFailed` when
the raw result signals an error state; otherwise it fails with `EmptyResult`
when the result carries no content items; otherwise, when the first content
item is a truthy object it is returned, and when it is falsy or not an object
the helper fails with an invalid-content condition. -/
theorem handleToolResult_unwrap_spec (result : RawToolResult) (toolName : String) :
    (result.isError = true →
      ∃ m, handleToolResult result toolName = .operationFailed m) ∧
    (result.isError = false → (result.content = none ∨ result.content = some []) →
      handleToolResult result toolName =
        .emptyResult ("Tool \x27" ++ toolName ++ "\x27 returned empty content")) ∧
    (result.isError = false → ∀ c rest, result.content = some (c :: rest) →
      c.isJsObject = true → handleToolResult result toolName = .ok c) ∧
    (result.isError = false → ∀ c rest, result.content = some (c :: rest) →
      c.isJsObject = false → handleToolResult result toolName =
        .invalidContent ("Tool \x27" ++ toolName ++ "\x27 returned invalid content structure")) := by
  refine ⟨?_, ?_, ?_, ?_⟩
  · intro he
    simp only [handleToolResult, he, if_true, Bool.true_eq]
    exact ⟨_, rfl⟩
  · intro he hc
    rcases hc with hc | hc <;> simp [handleToolResult, he, hc]
  · intro he c rest hc hobj
    simp [handleToolResult, he, hc, hobj]
  · intro he c rest hc hobj
    simp [handleToolResult, he, hc, hobj]

/-- Witness for the amended C3: an error-flagged result fails with
`OperationFailed`, and a successful object-carrying result returns its first
content item. -/
theorem handleToolResult_unwrap_spec_witness :
    (∃ m, handleToolResult { isError := true, content := none } "demo" = .operationFailed m) ∧
    (handleToolResult { isError := false, content := some [.objWithText "hi"] } "demo" =
      .ok (.objWithText "hi")) :=
  ⟨(handleToolResult_unwrap_spec { isError := true, content := none } "demo").1 rfl,
   (handleToolResult_unwrap_spec { isError := false, content := some [.objWithText "hi"] } "demo").2.2.1
     rfl (.objWithText "hi") [] rfl rfl⟩

/-! ### Claim C1: determinism modulo timestamps -/

/-- Counterexample to C1 as stated: two runs over the same map and options at
different timestamps differ not only at the header line but also at the
generated class, whose `@generated` JSDoc tag embeds a second timestamp. -/
theorem generateClientFile_single_timestamp_cex :
    ¬ onlyTimestampLineDiffers
        (generateClientFile demoServers {} "2025-01-01T00:00:00.000Z")
        (generateClientFile demoServers {} "2025-01-02T00:00:00.000Z") := by
  unfold onlyTimestampLineDiffers
  decide

lemma serverItems_strip (options : CodegenOptions) (t₁ t₂ : String)
    (sv : String × IntrospectionResult) :
    (serverItems options t₁ sv).map stripTimestamps =
      (serverItems options t₂ sv).map stripTimestamps := by
  obtain ⟨n, r⟩ := sv
  by_cases he : strTruthy r.error = true
  · simp [serverItems, he]
  · simp only [serverItems, he, if_false, Bool.false_eq_true]
    simp [stripTimestamps, generateClientClass]

/-- C1 amended — The assembler is deterministic: identical server map (same
entries in the same iteration order) and identical options always yield
identical output, modulo only the timestamp text, which occurs in the single
generation-header line and additionally in the `@generated` JSDoc tag of every
generated class. -/
theorem generateClientFile_deterministic_modulo_timestamps
    (servers : List (String × IntrospectionResult)) (options : CodegenOptions)
    (t₁ t₂ : String) :
    (generateClientFile servers options t₁).map stripTimestamps =
      (generateClientFile servers options t₂).map stripTimestamps := by
  unfold generateClientFile
  rw [List.map_append, List.map_append, List.map_flatMap, List.map_flatMap]
  congr 1
  exact List.flatMap_congr (fun sv _ => serverItems_strip options t₁ t₂ sv)

/-! ### Claims C7 and C8: per-server emission -/

lemma assoc_nodup_unique {β : Type} {l : List (String × β)}
    (h : (l.map Prod.fst).Nodup) {a : String} {b b' : β}
    (h1 : (a, b) ∈ l) (h2 : (a, b') ∈ l) : b = b' := by
  induction l with
  | nil => cases h1
  | cons hd tl ih =>
    simp only [List.map_cons, List.nodup_cons, List.mem_map] at h
    obtain ⟨hhd, htl⟩ := h
    rcases List.mem_cons.mp h1 with h1 | h1 <;> rcases List.mem_cons.mp h2 with h2 | h2
    · rw [← h1] at h2
      exact (congrArg Prod.snd h2).symm
    · exfalso
      exact hhd ⟨(a, b'), h2, by rw [← h1]⟩
    · exfalso
      exact hhd ⟨(a, b), h1, by rw [← h2]⟩
    · exact ih htl h1 h2

lemma serverItems_serverOf {options : CodegenOptions} {now n : String}
    {r : IntrospectionResult} {it : GenItem}
    (h : it ∈ serverItems options now (n, r)) {m : String}
    (hm : it.serverOf = some m) : m = n := by
  unfold serverItems at h
  dsimp only at h
  by_cases he : strTruthy r.error = true
  · rw [if_pos he] at h
    rw [List.mem_singleton] at h
    subst h
    simp [GenItem.serverOf] at hm
    exact hm.symm
  · rw [if_neg he] at h
    rcases List.mem_append.mp h with h | h
    · rcases List.mem_append.mp h with h | h
      · obtain ⟨t, _, ht⟩ := List.mem_map.mp h
        rw [← ht] at hm
        simp [GenItem.serverOf] at hm
      · rw [List.mem_singleton] at h
        subst h
        simp [GenItem.serverOf, generateClientClass] at hm
        exact hm.symm
    · by_cases hts : options.treeShakable ≠ some false
      · rw [if_pos hts] at h
        rcases List.mem_cons.mp h with h | h
        · subst h
          simp [GenItem.serverOf] at hm
          exact hm.symm
        · rw [List.mem_singleton] at h
          subst h
          simp [GenItem.serverOf] at hm
          exact hm.symm
      · rw [if_neg hts] at h
        cases h

lemma classItem_notMem_error_serverItems {options : CodegenOptions} {now n : String}
    {r : IntrospectionResult} (he : strTruthy r.error = true) {c : ClassDecl} :
    GenItem.classItem c ∉ serverItems options now (n, r) := by
  unfold serverItems
  dsimp only
  rw [if_pos he]
  simp

lemma slot_notMem_error_serverItems {options : CodegenOptions} {now n : String}
    {r : IntrospectionResult} (he : strTruthy r.error = true) {sn i cl : String} :
    GenItem.singletonSlot sn i cl ∉ serverItems options now (n, r) := by
  unfold serverItems
  dsimp only
  rw [if_pos he]
  simp

lemma accessor_notMem_error_serverItems {options : CodegenOptions} {now n : String}
    {r : IntrospectionResult} (he : strTruthy r.error = true) {sn f i cl : String} :
    GenItem.accessorFunc sn f i cl ∉ serverItems options now (n, r) := by
  unfold serverItems
  dsimp only
  rw [if_pos he]
  simp

lemma serverOf_none_of_mem_preamble {now : String} {it : GenItem}
    (h : it ∈ preambleItems now) : it.serverOf = none := by
  simp only [preambleItems, List.mem_cons, List.not_mem_nil, or_false] at h
  rcases h with h | h | h | h <;> subst h <;> rfl

/-- C7 — A server whose introspection carried an error string contributes an
error comment recording its name and error text, and no class, no singleton
slot and no accessor of that server appears anywhere in the assembled output
(server names are map keys, hence unique). -/
theorem generateClientFile_errored_server_spec
    (servers : List (String × IntrospectionResult)) (options : CodegenOptions)
    (now : String) (n e : String) (r : IntrospectionResult)
    (hmem : (n, r) ∈ servers) (hnodup : (servers.map Prod.fst).Nodup)
    (herr : r.error = some e) (hne : e ≠ "") :
    GenItem.errorComment n e ∈ generateClientFile servers options now ∧
    (∀ c : ClassDecl, GenItem.classItem c ∈ generateClientFile servers options now →
      c.serverName ≠ n) ∧
    (∀ i cl, GenItem.singletonSlot n i cl ∉ generateClientFile servers options now) ∧
    (∀ f i cl, GenItem.accessorFunc n f i cl ∉ generateClientFile servers options now) := by
  have he : strTruthy r.error = true := by simp [herr, strTruthy, hne]
  refine ⟨?_, ?_, ?_, ?_⟩
  · apply List.mem_append_right
    apply List.mem_flatMap.mpr
    refine ⟨(n, r), hmem, ?_⟩
    unfold serverItems
    dsimp only
    rw [if_pos he]
    simp [herr]
  · intro c hc hcn
    rcases List.mem_append.mp hc with hpre | hflat
    · have := serverOf_none_of_mem_preamble hpre
      simp [GenItem.serverOf] at this
    · obtain ⟨⟨n', r'⟩, hmem', hit⟩ := List.mem_flatMap.mp hflat
      have hsv : c.serverName = n' := serverItems_serverOf hit rfl
      have hn : n' = n := by rw [← hsv, hcn]
      subst hn
      have hr : r' = r := assoc_nodup_unique hnodup hmem' hmem
      subst hr
      exact classItem_notMem_error_serverItems he hit
  · intro i cl hc
    rcases List.mem_append.mp hc with hpre | hflat
    · have := serverOf_none_of_mem_preamble hpre
      simp [GenItem.serverOf] at this
    · obtain ⟨⟨n', r'⟩, hmem', hit⟩ := List.mem_flatMap.mp hflat
      have hn : n = n' := serverItems_serverOf hit rfl
      subst hn
      have hr : r' = r := assoc_nodup_unique hnodup hmem' hmem
      subst hr
      exact slot_notMem_error_serverItems he hit
  · intro f i cl hc
    rcases List.mem_append.mp hc with hpre | hflat
    · have := serverOf_none_of_mem_preamble hpre
      simp [GenItem.serverOf] at this
    · obtain ⟨⟨n', r'⟩, hmem', hit⟩ := List.mem_flatMap.mp hflat
      have hn : n = n' := serverItems_serverOf hit rfl
      subst hn
      have hr : r' = r := assoc_nodup_unique hnodup hmem' hmem
      subst hr
      exact accessor_notMem_error_serverItems he hit

/-- Witness for C7 at the spec scenario input. -/
theorem generateClientFile_errored_server_witness :
    ("broken", brokenResult) ∈ brokenServers ∧
    (brokenServers.map Prod.fst).Nodup ∧
    brokenResult.error = some "Connection refused" ∧
    "Connection refused" ≠ "" ∧
    (GenItem.errorComment "broken" "Connection refused" ∈
      generateClientFile brokenServers {} "T" ∧
    (∀ c : ClassDecl, GenItem.classItem c ∈ generateClientFile brokenServers {} "T" →
      c.serverName ≠ "broken") ∧
    (∀ i cl, GenItem.singletonSlot "broken" i cl ∉ generateClientFile brokenServers {} "T") ∧
    (∀ f i cl, GenItem.accessorFunc "broken" f i cl ∉ generateClientFile brokenServers {} "T")) :=
  ⟨List.mem_singleton.mpr rfl, by decide, rfl, by decide,
   generateClientFile_errored_server_spec brokenServers {} "T" "broken" "Connection refused"
     brokenResult (List.mem_singleton.mpr rfl) (by decide) rfl (by decide)⟩

/-- C8 — For an error-free server: its class definition is always emitted; with
`treeShakable: false` the output contains no singleton slot and no accessor
function at all; with `treeShakable` unset or `true` the output additionally
contains the server's module-level slot and its exported accessor named
`get<PascalCase(serverName)>Client`. -/
theorem generateClientFile_singleton_mode_spec
    (servers : List (String × IntrospectionResult)) (options : CodegenOptions)
    (now : String) (n : String) (r : IntrospectionResult)
    (hmem : (n, r) ∈ servers) (herr : r.error = none) :
    GenItem.classItem (generateClientClass n r now) ∈ generateClientFile servers options now ∧
    (options.treeShakable = some false →
      ∀ it ∈ generateClientFile servers options now,
        it.isSingletonSlot = false ∧ it.isAccessor = false) ∧
    (options.treeShakable ≠ some false →
      GenItem.singletonSlot n (camelCase n) (pascalCase n ++ "Client") ∈
        generateClientFile servers options now ∧
      GenItem.accessorFunc n ("get" ++ pascalCase n ++ "Client") (camelCase n)
        (pascalCase n ++ "Client") ∈ generateClientFile servers options now) := by
  have he : ¬ strTruthy r.error = true := by simp [herr, strTruthy]
  refine ⟨?_, ?_, ?_⟩
  · apply List.mem_append_right
    apply List.mem_flatMap.mpr
    refine ⟨(n, r), hmem, ?_⟩
    unfold serverItems
    dsimp only
    rw [if_neg he]
    apply List.mem_append_left
    apply List.mem_append_right
    simp
  · intro hopt it hit
    rcases List.mem_append.mp hit with hpre | hflat
    · simp only [preambleItems, List.mem_cons, List.not_mem_nil, or_false] at hpre
      rcases hpre with h | h | h | h <;> subst h <;> exact ⟨rfl, rfl⟩
    · obtain ⟨⟨n', r'⟩, _, hit'⟩ := List.mem_flatMap.mp hflat
      unfold serverItems at hit'
      dsimp only at hit'
      by_cases he' : strTruthy r'.error = true
      · rw [if_pos he'] at hit'
        rw [List.mem_singleton] at hit'
        subst hit'
        exact ⟨rfl, rfl⟩
      · rw [if_neg he'] at hit'
        rw [if_neg (by simp [hopt])] at hit'
        rw [List.append_nil] at hit'
        rcases List.mem_append.mp hit' with h | h
        · obtain ⟨t, _, ht⟩ := List.mem_map.mp h
          subst ht
          exact ⟨rfl, rfl⟩
        · rw [List.mem_singleton] at h
          subst h
          exact ⟨rfl, rfl⟩
  · intro hopt
    constructor <;>
    · apply List.mem_append_right
      apply List.mem_flatMap.mpr
      refine ⟨(n, r), hmem, ?_⟩
      unfold serverItems
      dsimp only
      rw [if_neg he]
      apply List.mem_append_right
      rw [if_pos hopt]
      simp

/-- Witness for C8 at the one-server map `demoServers` with default options. -/
theorem generateClientFile_singleton_mode_witness :
    ("demo", demoResult) ∈ demoServers ∧
    demoResult.error = none ∧
    (GenItem.classItem (generateClientClass "demo" demoResult "T") ∈
      generateClientFile demoServers {} "T" ∧
    ((CodegenOptions.mk none none none none).treeShakable = some false →
      ∀ it ∈ generateClientFile demoServers {} "T",
        it.isSingletonSlot = false ∧ it.isAccessor = false) ∧
    ((CodegenOptions.mk none none none none).treeShakable ≠ some false →
      GenItem.singletonSlot "demo" (camelCase "demo") (pascalCase "demo" ++ "Client") ∈
        generateClientFile demoServers {} "T" ∧
      GenItem.accessorFunc "demo" ("get" ++ pascalCase "demo" ++ "Client") (camelCase "demo")
        (pascalCase "demo" ++ "Client") ∈ generateClientFile demoServers {} "T")) :=
  ⟨List.mem_singleton.mpr rfl, rfl,
   generateClientFile_singleton_mode_spec demoServers {} "T" "demo" demoResult
     (List.mem_singleton.mpr rfl) rfl⟩
